import Mathlib

/-!
Verification development for the `accounts` app of the repository
`Django-basic-authentication-practice`.

The repository declares a single entity, `CustomUser`, extending the
framework's `AbstractUser` with a unique `email` column and an optional
`bio` column, plus a string rendering that returns the username
(src/accounts/models.py).  The persistence layer (creation flow, field
validation, uniqueness enforcement) is owned by the external framework and
is modelled here from the spec.
-/

/-- A `CustomUser` record: the inherited base-identity attributes listed by
the spec (username, password hash, active flag, staff/superuser flags, date
joined, last login, group/permission associations) plus the two locally
declared columns of src/accounts/models.py: `email` (line 9) and `bio`
(line 10).  `bio` is declared `null=True`, so it is an optional string. -/
structure CustomUser where
  username : String
  passwordHash : String
  isActive : Bool
  isStaff : Bool
  isSuperuser : Bool
  dateJoined : Nat
  lastLogin : Option Nat
  groups : List Nat
  userPermissions : List Nat
  email : String
  bio : Option String
deriving DecidableEq, BEq, Repr

/-- `CustomUser.__str__` (src/accounts/models.py lines 12-13):
`return self.username`. -/
def CustomUser.str (u : CustomUser) : String :=
  u.username

/-- The body of `__str__` is the single expression `self.username`: it
reads one field and performs no write.  We embed the method as an
operation on the pair (persisted state, instance) returning the rendered
string together with the (unchanged) persisted state, so that purity is
expressible. -/
def CustomUser.strOp (db : List CustomUser) (u : CustomUser) : String × List CustomUser :=
  (u.str, db)

/-- Column types of the declared fields.  `EmailField` and `CharField` are
string columns; `TextField` is a text column. -/
inductive ColType where
  | charCol
  | emailCol
  | textCol
deriving DecidableEq, Repr

/-- Whether a column type stores strings. -/
def ColType.isStringLike : ColType → Bool
  | .charCol => true
  | .emailCol => true
  | .textCol => true

/-- A field declaration: its column name, column type, and the `unique`,
`blank` and `null` options of the declaration. -/
structure FieldDecl where
  name : String
  colType : ColType
  unique : Bool
  blank : Bool
  nullable : Bool
deriving DecidableEq, Repr

/-- The locally declared fields of `CustomUser`
(src/accounts/models.py lines 9-10):
`email = models.EmailField(unique=True)` (blank and null default to False)
and `bio = models.TextField(blank=True, null=True)`. -/
def CustomUser.localFieldDecls : List FieldDecl :=
  [ ⟨"email", ColType.emailCol, true, false, false⟩,
    ⟨"bio", ColType.textCol, false, true, true⟩ ]

/-- Modelled from the spec: the inherited base-identity columns owned by
the external framework — "username, password hash, active flag,
staff/superuser flags, date joined, last login, group/permission
associations".  Their definitions live in the framework, not in this
repository. -/
def baseIdentityColumns : List String :=
  [ "username", "password", "is_active", "is_staff", "is_superuser",
    "date_joined", "last_login", "groups", "user_permissions" ]

/-- The persisted record shape: the inherited base-identity columns plus
the locally declared columns. -/
def persistedColumns : List String :=
  baseIdentityColumns ++ CustomUser.localFieldDecls.map FieldDecl.name

/-- Modelled from the spec: well-formedness of an email address, checked
by the external framework's field validation ("required format is a valid
email address (validated by the external framework)").  The checker
requires a single `@` with a nonempty local part and a nonempty domain
that contains an interior dot. -/
def isValidEmail (s : String) : Bool :=
  let cs := s.toList
  let localPart := cs.takeWhile (fun c => c ≠ '@')
  match cs.dropWhile (fun c => c ≠ '@') with
  | '@' :: domainPart =>
      !localPart.isEmpty && !domainPart.isEmpty &&
      domainPart.contains '.' && !domainPart.contains '@' &&
      domainPart.head? != some '.' && domainPart.getLast? != some '.'
  | _ => false

/-- Errors of the creation flow: a field-validation failure, or an
integrity failure raised by the storage layer at write time. -/
inductive CreateError where
  | invalidEmail
  | duplicateEmail
deriving DecidableEq, Repr

/-- Modelled from the spec: the external framework's account-creation
flow for a `CustomUser`.  Field validation runs first ("surfaced by the
external framework's field validation before persistence is attempted");
then the storage layer enforces the `unique=True` constraint on `email`
("surfaced by the persistence layer as a validation/integrity error at
write time").  The constraint compares the raw column values.  On success
the record is appended to the persisted set. -/
def createUser (db : List CustomUser) (u : CustomUser) : Except CreateError (List CustomUser) :=
  if isValidEmail u.email = false then
    Except.error CreateError.invalidEmail
  else if db.any (fun v => v.email == u.email) then
    Except.error CreateError.duplicateEmail
  else
    Except.ok (db ++ [u])

/-- Modelled from the spec: mutation of a persisted record "via standard
field updates through that framework's persistence API".  The record
sitting between `pre` and `post` is overwritten with the field values `u`;
as for creation, field validation and the `unique=True` constraint on
`email` — checked against the other persisted records — are enforced at
write time, and a rejected write produces no new state. -/
def updateUser (pre post : List CustomUser) (u : CustomUser) : Except CreateError (List CustomUser) :=
  if isValidEmail u.email = false then
    Except.error CreateError.invalidEmail
  else if (pre ++ post).any (fun v => v.email == u.email) then
    Except.error CreateError.duplicateEmail
  else
    Except.ok (pre ++ u :: post)

/-- Modelled from the spec: deletion of a persisted record through the
framework's persistence API. -/
def deleteUser (db : List CustomUser) (u : CustomUser) : List CustomUser :=
  db.filter (fun v => v != u)

/-- The persisted states reachable through the framework's lifecycle
(spec section 3): starting from the empty table, records are created
through the creation flow, mutated via standard field updates, and deleted
through the persistence API. -/
inductive Reachable : List CustomUser → Prop where
  | empty : Reachable []
  | create {db db2 : List CustomUser} {u : CustomUser} :
      Reachable db → createUser db u = Except.ok db2 → Reachable db2
  | update {pre post db2 : List CustomUser} {old u : CustomUser} :
      Reachable (pre ++ old :: post) → updateUser pre post u = Except.ok db2 →
      Reachable db2
  | del {db : List CustomUser} (u : CustomUser) :
      Reachable db → Reachable (deleteUser db u)

/-- Concrete record used in the spec scenarios: alice. -/
def alice : CustomUser :=
  ⟨"alice", "pbkdf2-hash", true, false, false, 0, none, [], [], "alice@example.com", none⟩

/-- Concrete record used in the spec scenarios: bob, reusing alice's
email. -/
def bob : CustomUser :=
  ⟨"bob", "pbkdf2-hash", true, false, false, 1, none, [], [], "alice@example.com", none⟩

theorem createUser_ok_iff (db : List CustomUser) (u : CustomUser) (db2 : List CustomUser)
    (h : createUser db u = Except.ok db2) :
    isValidEmail u.email = true ∧ (∀ v ∈ db, v.email ≠ u.email) ∧ db2 = db ++ [u] := by
  unfold createUser at h
  by_cases hv : isValidEmail u.email = false
  · simp [hv] at h
  · rw [if_neg hv] at h
    by_cases hd : db.any (fun v => v.email == u.email)
    · simp [hd] at h
    · rw [if_neg hd] at h
      refine ⟨by simpa using hv, ?_, by simpa using h.symm⟩
      intro v hv hme
      exact hd (List.any_eq_true.mpr ⟨v, hv, by simpa using hme⟩)

theorem updateUser_ok_iff (pre post : List CustomUser) (u : CustomUser) (db2 : List CustomUser)
    (h : updateUser pre post u = Except.ok db2) :
    isValidEmail u.email = true ∧ (∀ v ∈ pre ++ post, v.email ≠ u.email) ∧
      db2 = pre ++ u :: post := by
  unfold updateUser at h
  by_cases hv : isValidEmail u.email = false
  · simp [hv] at h
  · rw [if_neg hv] at h
    by_cases hd : (pre ++ post).any (fun v => v.email == u.email)
    · simp [hd] at h
    · rw [if_neg hd] at h
      refine ⟨by simpa using hv, ?_, by simpa using h.symm⟩
      intro v hv hme
      exact hd (List.any_eq_true.mpr ⟨v, hv, by simpa using hme⟩)

/-- The emails of every reachable persisted state are pairwise distinct. -/
theorem reachable_pairwise_email {db : List CustomUser} (h : Reachable db) :
    db.Pairwise (fun a b => a.email ≠ b.email) := by
  induction h with
  | empty => exact List.Pairwise.nil
  | create _ hok ih =>
      obtain ⟨_, hfresh, hdb2⟩ := createUser_ok_iff _ _ _ hok
      subst hdb2
      refine List.pairwise_append.mpr ⟨ih, List.pairwise_singleton _ _, ?_⟩
      intro a ha b hb
      simp at hb
      subst hb
      exact hfresh a ha
  | update _ hok ih =>
      obtain ⟨_, hfresh, hdb2⟩ := updateUser_ok_iff _ _ _ _ hok
      subst hdb2
      rw [List.pairwise_append] at ih ⊢
      obtain ⟨hpre, holdpost, hcross⟩ := ih
      rw [List.pairwise_cons] at holdpost ⊢
      refine ⟨hpre, ⟨?_, holdpost.2⟩, ?_⟩
      · intro b hb he
        exact hfresh b (List.mem_append.mpr (Or.inr hb)) he.symm
      · intro a ha b hb
        rcases List.mem_cons.mp hb with hb | hb
        · subst hb
          exact hfresh a (List.mem_append.mpr (Or.inl ha))
        · exact hcross a ha b (List.mem_cons_of_mem _ hb)
  | del u _ ih =>
      exact ih.sublist (List.filter_sublist _)

/-- A record with an empty username, used to check rendering totality. -/
def emptyNameUser : CustomUser :=
  ⟨"", "hash", true, false, false, 2, none, [], [], "noname@example.com", none⟩

/-- A record whose email value is missing (the empty string). -/
def mallory : CustomUser :=
  ⟨"mallory", "hash", true, false, false, 3, none, [], [], "", none⟩

/-- A record agreeing with alice on username only. -/
def aliceShadow : CustomUser :=
  ⟨"alice", "other-hash", false, true, true, 5, some 9, [1], [2], "shadow@example.com", some "hi"⟩

/-- A record whose email differs from alice's only in letter case. -/
def aliceUpper : CustomUser :=
  ⟨"aliceupper", "hash", true, false, false, 6, none, [], [], "Alice@example.com", none⟩

example : isValidEmail "alice@example.com" = true := by decide
example : isValidEmail "" = false := by decide

/-- C1: Email uniqueness invariant: in every reachable persisted state, two
records with equal email values occupy the same position, i.e. no reachable
state contains two distinct records with equal emails. -/
theorem C1_email_uniqueness (db : List CustomUser) (h : Reachable db)
    (i j : Fin db.length) (he : (db.get i).email = (db.get j).email) : i = j := by
  have hp := reachable_pairwise_email h
  rw [List.pairwise_iff_get] at hp
  rcases lt_trichotomy i j with hij | hij | hij
  · exact absurd he (hp i j hij)
  · exact hij
  · exact absurd he.symm (hp j i hij)

/-- Witness for C1 at the concrete reachable state `[alice]`. -/
theorem C1_email_uniqueness_witness :
    Reachable [alice] ∧ (⟨0, Nat.one_pos⟩ : Fin [alice].length) = ⟨0, Nat.one_pos⟩ := by
  have h : Reachable [alice] := @Reachable.create [] [alice] alice Reachable.empty rfl
  exact ⟨h, C1_email_uniqueness [alice] h ⟨0, Nat.one_pos⟩ ⟨0, Nat.one_pos⟩ rfl⟩

/-- C2: rendering a `CustomUser` as a string yields exactly its username
field; in particular alice (username "alice", email "alice@example.com")
renders as "alice". -/
theorem C2_str_is_username :
    (∀ u : CustomUser, u.str = u.username) ∧ alice.str = "alice" :=
  ⟨fun _ => rfl, rfl⟩

/-- C3: `bio` is optional: creating a record with no bio value succeeds
whenever the input is otherwise valid (well-formed email, email not already
persisted); the absence of bio is never an error. -/
theorem C3_bio_optional (db : List CustomUser) (u : CustomUser)
    (_hbio : u.bio = none) (hem : isValidEmail u.email = true)
    (hfresh : ∀ v ∈ db, v.email ≠ u.email) :
    createUser db u = Except.ok (db ++ [u]) := by
  unfold createUser
  rw [if_neg (by simp [hem]), if_neg ?_]
  intro hany
  obtain ⟨v, hv, hvu⟩ := List.any_eq_true.mp hany
  exact hfresh v hv (by simpa using hvu)

/-- Witness for C3: alice has no bio and is created successfully into the
empty table. -/
theorem C3_bio_optional_witness :
    alice.bio = none ∧ isValidEmail alice.email = true ∧
      createUser [] alice = Except.ok [alice] :=
  ⟨rfl, rfl, C3_bio_optional [] alice rfl rfl (fun v hv => absurd hv (List.not_mem_nil v))⟩

/-- C4: a missing or malformed email fails field validation, and no record
is persisted: creation never returns a new state for such an input. -/
theorem C4_invalid_email_rejected (db : List CustomUser) (u : CustomUser)
    (h : isValidEmail u.email = false) :
    createUser db u = Except.error CreateError.invalidEmail ∧
      ∀ db2, createUser db u ≠ Except.ok db2 := by
  have hc : createUser db u = Except.error CreateError.invalidEmail := by
    unfold createUser
    rw [if_pos h]
  exact ⟨hc, fun db2 hok => by rw [hc] at hok; exact Except.noConfusion hok⟩

/-- Witness for C4: mallory's email is the empty string (missing). -/
theorem C4_invalid_email_rejected_witness :
    isValidEmail mallory.email = false ∧
      (createUser [] mallory = Except.error CreateError.invalidEmail ∧
        ∀ db2, createUser [] mallory ≠ Except.ok db2) :=
  ⟨rfl, C4_invalid_email_rejected [] mallory rfl⟩

/-- C5: creating a record whose email equals the email of an already
persisted record is rejected with an integrity error at write time, and no
new state is produced by the rejected write. -/
theorem C5_duplicate_email_rejected (db : List CustomUser) (u : CustomUser)
    (hval : isValidEmail u.email = true)
    (hdup : ∃ v ∈ db, v.email = u.email) :
    createUser db u = Except.error CreateError.duplicateEmail ∧
      ∀ db2, createUser db u ≠ Except.ok db2 := by
  obtain ⟨v, hv, hvu⟩ := hdup
  have hany : db.any (fun w => w.email == u.email) = true :=
    List.any_eq_true.mpr ⟨v, hv, by simpa using hvu⟩
  unfold createUser
  rw [if_neg (by simp [hval]), if_pos hany]
  exact ⟨rfl, fun db2 hok => Except.noConfusion hok⟩

/-- Witness for C5: the spec scenario — bob reuses alice's email and is
rejected as a duplicate after alice is persisted. -/
theorem C5_duplicate_email_rejected_witness :
    isValidEmail bob.email = true ∧ (∃ v ∈ [alice], v.email = bob.email) ∧
      (createUser [alice] bob = Except.error CreateError.duplicateEmail ∧
        ∀ db2, createUser [alice] bob ≠ Except.ok db2) :=
  ⟨rfl, ⟨alice, List.mem_singleton.mpr rfl, rfl⟩,
    C5_duplicate_email_rejected [alice] bob rfl ⟨alice, List.mem_singleton.mpr rfl, rfl⟩⟩

/-- C6: rendering is total and pure: on every persisted state and every
record — including one with an empty username — it returns the username and
leaves the state (and the record, which it never writes) unchanged. -/
theorem C6_str_total_pure :
    (∀ (db : List CustomUser) (u : CustomUser),
      CustomUser.strOp db u = (u.username, db)) ∧
      CustomUser.strOp [alice] emptyNameUser = ("", [alice]) :=
  ⟨fun _ _ => rfl, rfl⟩

/-- C7: the persisted record shape is exactly the inherited base-identity
columns plus a unique string column `email` (not nullable) and a nullable
text column `bio`, and no other locally declared columns. -/
theorem C7_persisted_shape :
    persistedColumns = baseIdentityColumns ++ ["email", "bio"] ∧
      CustomUser.localFieldDecls.map FieldDecl.name = ["email", "bio"] ∧
      (∃ d ∈ CustomUser.localFieldDecls, d.name = "email" ∧ d.unique = true ∧
        d.colType.isStringLike = true ∧ d.nullable = false) ∧
      (∃ d ∈ CustomUser.localFieldDecls, d.name = "bio" ∧
        d.colType = ColType.textCol ∧ d.nullable = true) := by
  refine ⟨rfl, rfl, ⟨⟨"email", ColType.emailCol, true, false, false⟩, ?_, rfl, rfl, rfl, rfl⟩,
    ⟨⟨"bio", ColType.textCol, false, true, true⟩, ?_, rfl, rfl, rfl⟩⟩
  · exact List.mem_cons_self _ _
  · exact List.mem_cons_of_mem _ (List.mem_cons_self _ _)

/-- C8: the string form depends only on the username field: any two records
agreeing on username render to equal strings, whatever their email, bio or
inherited fields. -/
theorem C8_str_noninterference (u v : CustomUser) (h : u.username = v.username) :
    u.str = v.str :=
  h

/-- Witness for C8: alice and aliceShadow agree on username only and render
identically. -/
theorem C8_str_noninterference_witness :
    alice.username = aliceShadow.username ∧ alice.str = aliceShadow.str :=
  ⟨rfl, C8_str_noninterference alice aliceShadow rfl⟩

/-- C10: the uniqueness constraint compares raw strings: emails differing
only in letter case are distinct, so both records persist, one after the
other. -/
theorem C10_case_sensitive_uniqueness :
    aliceUpper.email ≠ alice.email ∧
      createUser [] aliceUpper = Except.ok [aliceUpper] ∧
      createUser [aliceUpper] alice = Except.ok [aliceUpper, alice] ∧
      Reachable [aliceUpper, alice] :=
  ⟨by decide, rfl, rfl,
    @Reachable.create [aliceUpper] [aliceUpper, alice] alice
      (@Reachable.create [] [aliceUpper] aliceUpper Reachable.empty rfl) rfl⟩
